import Mathlib

/-!
Shallow embedding of `src/Genosma.py` (GenOS-SMA): a four-stage
multi-agent pipeline (comprehend, plan, examine/gate, execute) with a
fuzzy-similarity plan cache and a JSON audit log.  External
collaborators (the LLM, the web-search tool, the shell, the human at
the prompt, `json.loads`, and `difflib`'s similarity ratio) are
modelled as oracle parameters; everything else is translated directly
from the Python source.
-/

namespace Genosma

/-- Plan, the JSON shape produced by `PlanningAgent.create_plan`
(`steps`, `description`, `estimated_time`, `reversible`). -/
structure Plan where
  steps : List String
  description : String
  estimated_time : String
  reversible : Bool
deriving DecidableEq, Repr

/-- IntentDescriptor, the JSON shape produced by
`ComprehensionAgent.analyze`. -/
structure IntentDescriptor where
  intent : String
  task_type : String
  complexity : String
  requirements : List String
  risks : List String
deriving DecidableEq, Repr

/-- RiskAssessment, the JSON shape produced by
`ExaminerAgent.analyze_plan`.  `requires_permission` is an `Option`
because the orchestrator reads it with
`analysis.get("requires_permission", True)`: `none` models a parsed
JSON object lacking the key. -/
structure RiskAssessment where
  risk_level : String
  requires_permission : Option Bool
  dangerous_commands : List String
  safe_commands : List String
  recommendation : String
  warning_message : String
deriving DecidableEq, Repr

/-- ErrorContext packaged by `ExecutionAgent.execute` on a failed or
timed-out step. -/
structure ErrorContext where
  command : String
  error : String
  remaining_steps : List String
deriving DecidableEq, Repr

/-- StepResult appended by `ExecutionAgent.execute` for each
successfully executed command. -/
structure StepResult where
  command : String
  status : String
  stdout : String
  stderr : String
deriving DecidableEq, Repr

/-- ExecutionOutcome, the dict returned by `ExecutionAgent.execute`. -/
structure ExecutionOutcome where
  status : String
  results : List StepResult
  error_context : Option ErrorContext
deriving DecidableEq, Repr

/-- CacheEntry, one element of the knowledge-base JSON array
(`linux_command_plans.json`): an object with keys `query` and `plan`. -/
structure CacheEntry where
  query : String
  plan : Plan
deriving DecidableEq, Repr

/-- Model of `add_to_kb`: `load_kb` / append / `save_kb` collapses to a
list append on the in-memory cache state. -/
def add_to_kb (kb : List CacheEntry) (query : String) (plan : Plan) : List CacheEntry :=
  kb ++ [⟨query, plan⟩]

/-- Lexicographic code-point order on character lists, modelling how
Python compares the string components of `(score, string)` tuples. -/
def charListLt : List Char → List Char → Bool
  | [], [] => false
  | [], _ :: _ => true
  | _ :: _, [] => false
  | a :: as, b :: bs =>
    if a.toNat < b.toNat then true
    else if b.toNat < a.toNat then false
    else charListLt as bs

/-- Python string comparison `s < t` (code-point lexicographic). -/
def pyStrLt (s t : String) : Bool :=
  charListLt s.data t.data

/-- One fold step of the model of `heapq.nlargest(1, ...)` used inside
`difflib.get_close_matches`: keep the lexicographically largest
`(score, string)` pair, preferring the earlier element on full ties. -/
def pickBest (acc : Option (ℚ × String)) (p : ℚ × String) : Option (ℚ × String) :=
  match acc with
  | none => some p
  | some q => if q.1 < p.1 ∨ (q.1 = p.1 ∧ pyStrLt q.2 p.2 = true) then some p else some q

/-- Model of `difflib.get_close_matches(word, possibilities, n=1,
cutoff)`, parameterised by the `SequenceMatcher` similarity `ratio`.
difflib filters by `real_quick_ratio`, `quick_ratio` and `ratio`
against the cutoff; the first two are upper bounds of `ratio`, so the
conjunction is equivalent to `ratio ≥ cutoff`.  `nlargest(1, ...)` on
`(score, x)` tuples returns the largest tuple in lexicographic order
(first occurrence on ties). -/
def get_close_matches1 (ratio : String → String → ℚ) (word : String)
    (possibilities : List String) (cutoff : ℚ) : List String :=
  let scored := (possibilities.filter (fun x => cutoff ≤ ratio x word)).map
    (fun x => (ratio x word, x))
  match scored.foldl pickBest none with
  | none => []
  | some p => [p.2]

/-- Model of `find_similar_plan(query, threshold)`: fuzzy lookup in the
knowledge base, returning the plan of the FIRST entry whose query
equals the best match. -/
def find_similar_plan (ratio : String → String → ℚ) (kb : List CacheEntry)
    (query : String) (threshold : ℚ) : Option Plan :=
  if kb.isEmpty then none
  else
    let queries := kb.map (fun item => item.query)
    match get_close_matches1 ratio query queries threshold with
    | [] => none
    | m :: _ =>
      match kb.find? (fun item => item.query == m) with
      | some item => some item.plan
      | none => none

/-- Model of Python `str.strip()`: drop leading and trailing
whitespace.  Implemented structurally over the character list so that
it evaluates inside the kernel. -/
def pyStrip (s : String) : String :=
  String.mk (((s.data.dropWhile Char.isWhitespace).reverse.dropWhile
    Char.isWhitespace).reverse)

/-- Model of Python `str.lower()` (ASCII case folding suffices for the
strings the gate compares). -/
def pyLower (s : String) : String :=
  String.mk (s.data.map Char.toLower)

/-- Model of `re.search(r'\x7b.*\x7d', s, re.DOTALL).group(0)`: the
greedy match runs from the first opening brace to the last closing
brace after it; `none` when no such pair exists. -/
def extractBraced (s : String) : Option String :=
  let cs := s.data
  match cs.findIdx? (fun c => c == Char.ofNat 123) with
  | none => none
  | some i =>
    match cs.reverse.findIdx? (fun c => c == Char.ofNat 125) with
    | none => none
    | some rj =>
      let j := cs.length - 1 - rj
      if i < j then some (String.mk ((cs.drop i).take (j - i + 1))) else none

/-- Oracle inputs consumed by `ComprehensionAgent.analyze`: the two LLM
replies, the search collaborator (exceptions as `Except.error`), and
`json.loads` reading the extracted substring into the
IntentDescriptor shape (`none` models a parse exception). -/
structure CompEnv where
  searchDecisionReply : String
  searchRun : String → Except String String
  analysisReply : String
  parseIntent : String → Option IntentDescriptor

/-- Model of `ComprehensionAgent.analyze`.  The search phase only
feeds text into the second prompt (whose reply is an oracle), so its
result is computed but does not further constrain the reply; the
parse-or-default logic is translated exactly.  The function is total:
analyze never raises to its caller. -/
def ComprehensionAgent.analyze (env : CompEnv) (user_input : String) : IntentDescriptor :=
  let search_decision := pyStrip env.searchDecisionReply
  let _search_results : String :=
    if search_decision ≠ "NO_SEARCH_NEEDED" then
      match env.searchRun search_decision with
      | Except.ok r => "Search results: " ++ r
      | Except.error e => "Search failed: " ++ e
    else ""
  let response := pyStrip env.analysisReply
  match extractBraced response with
  | some jsonStr =>
    match env.parseIntent jsonStr with
    | some d => d
    | none =>
      { intent := user_input, task_type := "other", complexity := "simple"
        requirements := [], risks := [] }
  | none =>
      { intent := user_input, task_type := "other", complexity := "simple"
        requirements := [], risks := [] }

/-- Oracle inputs consumed by `PlanningAgent.create_plan`: the search
collaborator, the LLM reply to the planning prompt, and `json.loads`
into the Plan shape. -/
structure PlanEnv where
  searchRun : String → Except String String
  planReply : String
  parsePlan : String → Option Plan

/-- Effect trace of one `create_plan` call: whether the search tool
and the LLM were invoked (on a cache hit neither is). -/
structure PlanTrace where
  searchCalled : Bool
  llmCalled : Bool
deriving DecidableEq, Repr

/-- Model of `PlanningAgent.create_plan(user_input,
comprehension_data, error_context)`.  The cache is queried with the
default threshold 0.6; on a hit the cached plan is returned at once.
Otherwise the search tool runs when `task_type == "installation"` or
`complexity == "complex"`, the LLM is invoked (its reply is the
oracle `env.planReply`; the prompt text, which is where
`error_context` is interpolated, is not modelled because the reply is
an oracle), and the first braced substring is parsed, defaulting to
the empty "Failed to create plan" plan on any parse failure.
`create_plan` makes no store call: the cache `kb` is read, never
written, which is visible in the return type. -/
def PlanningAgent.create_plan (ratio : String → String → ℚ) (env : PlanEnv)
    (kb : List CacheEntry) (user_input : String)
    (comprehension_data : IntentDescriptor) (error_context : Option ErrorContext) :
    Plan × PlanTrace :=
  match find_similar_plan ratio kb user_input (mkRat 6 10) with
  | some existing_plan => (existing_plan, ⟨false, false⟩)
  | none =>
    let searchUsed : Bool :=
      comprehension_data.task_type == "installation" ||
        comprehension_data.complexity == "complex"
    let _search_context : String :=
      if searchUsed then
        match env.searchRun ("linux commands " ++ comprehension_data.intent) with
        | Except.ok r => "Reference: " ++ r
        | Except.error e => "Search failed: " ++ e
      else ""
    let _ := error_context
    let response := pyStrip env.planReply
    let plan : Plan :=
      match extractBraced response with
      | some jsonStr =>
        match env.parsePlan jsonStr with
        | some p => p
        | none =>
          { steps := [], description := "Failed to create plan"
            estimated_time := "unknown", reversible := false }
      | none =>
          { steps := [], description := "Failed to create plan"
            estimated_time := "unknown", reversible := false }
    (plan, ⟨searchUsed, true⟩)

/-- Model of `ExaminerAgent.analyze_plan(plan)`: send the steps to the
LLM (reply is the oracle), extract the first braced substring and
parse it; on any failure return the conservative default assessment.
The function is total and deterministic in its inputs. -/
def ExaminerAgent.analyze_plan (parseAssessment : String → Option RiskAssessment)
    (examReply : String) (plan : Plan) : RiskAssessment :=
  let commands := plan.steps
  let response := pyStrip examReply
  match extractBraced response with
  | some jsonStr =>
    match parseAssessment jsonStr with
    | some a => a
    | none =>
      { risk_level := "high", requires_permission := some true
        dangerous_commands := commands, safe_commands := []
        recommendation := "request_permission", warning_message := "Analysis failed" }
  | none =>
      { risk_level := "high", requires_permission := some true
        dangerous_commands := commands, safe_commands := []
        recommendation := "request_permission", warning_message := "Analysis failed" }

/-- Truth of `resp in ["y", "yes"]` after `.strip().lower()`. -/
def isYes (a : String) : Bool :=
  pyLower (pyStrip a) == "y" || pyLower (pyStrip a) == "yes"

/-- Truth of `resp in ["n", "no"]` after `.strip().lower()`. -/
def isNo (a : String) : Bool :=
  pyLower (pyStrip a) == "n" || pyLower (pyStrip a) == "no"

/-- An answer the gate's while-loop accepts: yes-like or no-like. -/
def recognized (a : String) : Bool :=
  isYes a || isNo a

/-- Model of the `while True` prompt loop inside
`request_user_permission`.  The human's successive answers are a
list; `none` models the loop never terminating because no recognized
answer arrives. -/
def gateLoop : List String → Option Bool
  | [] => none
  | a :: rest =>
    if isYes a then some true
    else if isNo a then some false
    else gateLoop rest

/-- Model of `ExaminerAgent.request_user_permission(plan, analysis)`:
deny maps to False, approve to True, anything else enters the prompt
loop.  (The `plan` argument is unused in the source as well.) -/
def ExaminerAgent.request_user_permission (analysis : RiskAssessment)
    (answers : List String) : Option Bool :=
  if analysis.recommendation = "deny" then some false
  else if analysis.recommendation = "approve" then some true
  else gateLoop answers

/-- Result of one `subprocess.run(cmd, shell=True, check=True,
timeout=300)` call: normal completion, `CalledProcessError` (non-zero
exit; `msg` is `str(e)`), or `TimeoutExpired`. -/
inductive ShellResult
  | ok (stdout stderr : String)
  | err (msg : String)
  | timeout
deriving DecidableEq, Repr

/-- Recursion of `ExecutionAgent.execute` over the pending steps.
State threaded explicitly: accumulated results, the cache (written by
`add_to_kb` after every successful step), and the trace of commands
handed to the shell (models which steps were actually run). -/
def executeSteps (shell : String → ShellResult) (plan : Plan) (user_query : String) :
    List String → List StepResult → List CacheEntry → List String →
    ExecutionOutcome × List CacheEntry × List String
  | [], results, kb, invoked =>
    ({ status := "success", results := results, error_context := none }, kb, invoked)
  | cmd :: rest, results, kb, invoked =>
    match shell cmd with
    | ShellResult.ok out errOut =>
      executeSteps shell plan user_query rest
        (results ++ [{ command := cmd, status := "success", stdout := out, stderr := errOut }])
        (add_to_kb kb user_query plan) (invoked ++ [cmd])
    | ShellResult.err msg =>
      ({ status := "failed", results := results
         error_context := some { command := cmd, error := msg, remaining_steps := rest } },
       kb, invoked ++ [cmd])
    | ShellResult.timeout =>
      ({ status := "timeout", results := results
         error_context := some { command := cmd, error := "Timeout", remaining_steps := rest } },
       kb, invoked ++ [cmd])

/-- Model of `ExecutionAgent.execute(plan, user_query)`: run the steps
in order, short-circuiting on the first failure or timeout.  Returns
the outcome, the final cache state, and the list of commands run. -/
def ExecutionAgent.execute (shell : String → ShellResult) (plan : Plan)
    (user_query : String) (kb : List CacheEntry) :
    ExecutionOutcome × List CacheEntry × List String :=
  executeSteps shell plan user_query plan.steps [] kb []

/-- Payload of one audit record, one variant per pipeline stage. -/
inductive AuditData
  | comp (d : IntentDescriptor)
  | plan (p : Plan)
  | analysis (a : RiskAssessment)
  | exec (e : ExecutionOutcome)
deriving DecidableEq, Repr

/-- AuditRecord, one element of the audit-log JSON array. -/
structure AuditRecord where
  stage : String
  data : AuditData
deriving DecidableEq, Repr

/-- Observable states of the audit-log file as `AuditorAgent.log`
reads it: missing, present but not valid JSON (`json.load` raises),
present and valid JSON but not an array (`json.load` returns a value
with no `append` method, e.g. the file "123" or an object), or a
JSON array of records. -/
inductive AuditFileState
  | absent
  | unparseable
  | nonArray
  | array (records : List AuditRecord)
deriving DecidableEq, Repr

/-- Model of `AuditorAgent.log(stage, data)` at the file level.  The
try/except around `json.load` catches only read/parse errors; when
the file parses to a non-list value, `logs.append` raises an
AttributeError OUTSIDE the try block, so the call raises
(`Except.error`) and the file keeps its previous content. -/
def AuditorAgent.log (st : AuditFileState) (stage : String) (data : AuditData) :
    Except String AuditFileState :=
  match st with
  | AuditFileState.absent => Except.ok (AuditFileState.array [⟨stage, data⟩])
  | AuditFileState.unparseable => Except.ok (AuditFileState.array [⟨stage, data⟩])
  | AuditFileState.nonArray => Except.error "AttributeError: object has no attribute append"
  | AuditFileState.array logs => Except.ok (AuditFileState.array (logs ++ [⟨stage, data⟩]))

/-- Oracle inputs for one whole `process_request` run. -/
structure Oracles where
  comp : CompEnv
  ratio : String → String → ℚ
  planEnv : PlanEnv
  examReply : String
  parseAssessment : String → Option RiskAssessment
  answers : List String
  shell : String → ShellResult

/-- Observable result of one `process_request` run: the audit records
appended (in order), the final cache, the `error_context` argument of
every `create_plan` call, which stages ran, the commands handed to
the shell, and the execution outcome when the executor ran.
`blocked` marks the gate loop never receiving a recognized answer. -/
structure RunResult where
  audit : List AuditRecord
  kb : List CacheEntry
  planCalls : List (Option ErrorContext)
  planSearchCalled : Bool
  planLlmCalled : Bool
  examinerCalled : Bool
  gateCalled : Bool
  executeCalled : Bool
  shellInvoked : List String
  outcome : Option ExecutionOutcome
  blocked : Bool
deriving DecidableEq, Repr

/-- Model of `MultiAgentSystem.process_request(user_input)`, threading
the cache state and recording each stage's effects.  The in-request
audit trail is modelled as the list of records passed to
`self.auditor.log` (file-level behaviour of `log` is modelled
separately); `auditor.summary` only prints, so it adds nothing
observable.  The single `create_plan` call passes no
`error_context` (the Python default `None`). -/
def MultiAgentSystem.process_request (o : Oracles) (kb0 : List CacheEntry)
    (user_input : String) : RunResult :=
  let comprehension := ComprehensionAgent.analyze o.comp user_input
  let a1 : List AuditRecord := [⟨"comprehension", AuditData.comp comprehension⟩]
  let pr := PlanningAgent.create_plan o.ratio o.planEnv kb0 user_input comprehension none
  let plan := pr.1
  let a2 := a1 ++ [⟨"plan_creation", AuditData.plan plan⟩]
  if plan.steps.isEmpty then
    { audit := a2, kb := kb0, planCalls := [none]
      planSearchCalled := pr.2.searchCalled, planLlmCalled := pr.2.llmCalled
      examinerCalled := false, gateCalled := false, executeCalled := false
      shellInvoked := [], outcome := none, blocked := false }
  else
    let analysis := ExaminerAgent.analyze_plan o.parseAssessment o.examReply plan
    let a3 := a2 ++ [⟨"plan_analysis", AuditData.analysis analysis⟩]
    let runExec : Bool → RunResult := fun gateUsed =>
      let ex := ExecutionAgent.execute o.shell plan user_input kb0
      { audit := a3 ++ [⟨"execution", AuditData.exec ex.1⟩], kb := ex.2.1
        planCalls := [none]
        planSearchCalled := pr.2.searchCalled, planLlmCalled := pr.2.llmCalled
        examinerCalled := true, gateCalled := gateUsed, executeCalled := true
        shellInvoked := ex.2.2, outcome := some ex.1, blocked := false }
    if analysis.requires_permission.getD true then
      match ExaminerAgent.request_user_permission analysis o.answers with
      | some true => runExec true
      | some false =>
        { audit := a3, kb := kb0, planCalls := [none]
          planSearchCalled := pr.2.searchCalled, planLlmCalled := pr.2.llmCalled
          examinerCalled := true, gateCalled := true, executeCalled := false
          shellInvoked := [], outcome := none, blocked := false }
      | none =>
        { audit := a3, kb := kb0, planCalls := [none]
          planSearchCalled := pr.2.searchCalled, planLlmCalled := pr.2.llmCalled
          examinerCalled := true, gateCalled := true, executeCalled := false
          shellInvoked := [], outcome := none, blocked := true }
    else runExec false

/-! Helper lemmas. -/

lemma charListLt_irrefl (cs : List Char) : charListLt cs cs = false := by
  induction cs with
  | nil => rfl
  | cons a as ih => simp [charListLt, ih]

lemma pyStrLt_irrefl (s : String) : pyStrLt s s = false :=
  charListLt_irrefl s.data

lemma pickBest_cases (acc : Option (ℚ × String)) (p : ℚ × String) :
    pickBest acc p = some p ∨ pickBest acc p = acc := by
  cases acc with
  | none => left; rfl
  | some q =>
    by_cases h : q.1 < p.1 ∨ (q.1 = p.1 ∧ pyStrLt q.2 p.2 = true)
    · left; simp [pickBest, h]
    · right; simp [pickBest, h]

lemma pickBest_top_absorb (top x : ℚ × String) (hx : x = top ∨ x.1 < top.1) :
    pickBest (some top) x = some top := by
  rcases hx with h | h
  · subst h; simp [pickBest, ite_self]
  · have h1 : ¬ top.1 < x.1 := lt_asymm h
    have h2 : ¬ top.1 = x.1 := ne_of_gt h
    simp [pickBest, h1, h2]

lemma pickBest_reach_top (acc : Option (ℚ × String)) (top : ℚ × String)
    (hacc : ∀ y, acc = some y → (y = top ∨ y.1 < top.1)) :
    pickBest acc top = some top := by
  cases acc with
  | none => rfl
  | some y =>
    rcases hacc y rfl with h | h
    · subst h; simp [pickBest, ite_self]
    · simp [pickBest, h]

lemma foldl_pickBest_eq_top (top : ℚ × String) :
    ∀ (l : List (ℚ × String)), (∀ x ∈ l, x = top ∨ x.1 < top.1) →
      ∀ acc : Option (ℚ × String),
        (∀ y, acc = some y → (y = top ∨ y.1 < top.1)) →
        (acc = some top ∨ top ∈ l) →
        l.foldl pickBest acc = some top := by
  intro l
  induction l with
  | nil =>
    intro _ acc hacc hreach
    rcases hreach with h | h
    · simpa using h
    · cases h
  | cons a l ih =>
    intro hl acc hacc hreach
    have ha := hl a (by simp)
    simp only [List.foldl_cons]
    apply ih (fun x hx => hl x (by simp [hx]))
    · intro y hy
      rcases pickBest_cases acc a with hc | hc
      · rw [hc] at hy; injection hy with hy; exact hy ▸ ha
      · rw [hc] at hy; exact hacc y hy
    · rcases hreach with h | h
      · left; rw [h]; exact pickBest_top_absorb top a ha
      · rcases List.mem_cons.mp h with h1 | h1
        · left; rw [← h1]; exact pickBest_reach_top acc top hacc
        · right; exact h1

/-- C2: for every plan and every LLM reply from which no JSON object can
be extracted and parsed, `ExaminerAgent.analyze_plan` returns exactly
the conservative default assessment (risk high, permission required,
`dangerous_commands` equal to the plan's steps, no safe commands,
recommendation request_permission, warning "Analysis failed").  Being a
total pure Lean function, the model is deterministic and never
raises. -/
theorem C2_analyze_plan_parse_failure_default
    (parseAssessment : String → Option RiskAssessment) (examReply : String) (plan : Plan)
    (hfail : ∀ s, extractBraced (pyStrip examReply) = some s → parseAssessment s = none) :
    ExaminerAgent.analyze_plan parseAssessment examReply plan =
      { risk_level := "high", requires_permission := some true
        dangerous_commands := plan.steps, safe_commands := []
        recommendation := "request_permission", warning_message := "Analysis failed" } := by
  unfold ExaminerAgent.analyze_plan
  cases h : extractBraced (pyStrip examReply) with
  | none => simp [h]
  | some s => simp [h, hfail s h]

/-- Witness for C2 at a concrete unparseable reply. -/
theorem C2_analyze_plan_parse_failure_default_witness :
    ExaminerAgent.analyze_plan (fun _ => none) "no json here" ⟨["rm -rf /tmp/x"], "d", "5m", false⟩ =
      { risk_level := "high", requires_permission := some true
        dangerous_commands := ["rm -rf /tmp/x"], safe_commands := []
        recommendation := "request_permission", warning_message := "Analysis failed" } :=
  C2_analyze_plan_parse_failure_default (fun _ => none) "no json here"
    ⟨["rm -rf /tmp/x"], "d", "5m", false⟩ (fun _ _ => rfl)

/-- C8: for every request string and every LLM reply from which no JSON
object can be extracted and parsed, `ComprehensionAgent.analyze`
returns exactly the default descriptor with `intent` equal to the
request; it is a total function, so it never raises to the caller. -/
theorem C8_comprehension_parse_failure_default (env : CompEnv) (user_input : String)
    (hfail : ∀ s, extractBraced (pyStrip env.analysisReply) = some s → env.parseIntent s = none) :
    ComprehensionAgent.analyze env user_input =
      { intent := user_input, task_type := "other", complexity := "simple"
        requirements := [], risks := [] } := by
  unfold ComprehensionAgent.analyze
  cases h : extractBraced (pyStrip env.analysisReply) with
  | none => simp [h]
  | some s => simp [h, hfail s h]

/-- Witness for C8 at a concrete unparseable reply. -/
theorem C8_comprehension_parse_failure_default_witness :
    ComprehensionAgent.analyze
      { searchDecisionReply := "NO_SEARCH_NEEDED", searchRun := fun _ => Except.ok ""
        analysisReply := "sorry, cannot answer", parseIntent := fun _ => none }
      "install curl" =
      { intent := "install curl", task_type := "other", complexity := "simple"
        requirements := [], risks := [] } :=
  C8_comprehension_parse_failure_default
    { searchDecisionReply := "NO_SEARCH_NEEDED", searchRun := fun _ => Except.ok ""
      analysisReply := "sorry, cannot answer", parseIntent := fun _ => none }
    "install curl" (fun _ _ => rfl)

lemma gateLoop_first_recognized :
    ∀ (pre : List String) (a : String) (post : List String),
      (∀ b ∈ pre, recognized b = false) → recognized a = true →
      gateLoop (pre ++ a :: post) = some (isYes a) := by
  intro pre
  induction pre with
  | nil =>
    intro a post _ ha
    simp only [List.nil_append, gateLoop]
    by_cases hy : isYes a
    · simp [hy]
    · have hy' : isYes a = false := by simpa using hy
      have hn : isNo a = true := by
        have := ha
        simp [recognized, hy'] at this
        exact this
      simp [hy', hn]
  | cons b pre ih =>
    intro a post hpre ha
    have hb : recognized b = false := hpre b (by simp)
    have hby : isYes b = false := by
      rcases Bool.or_eq_false_iff.mp (by simpa [recognized] using hb) with ⟨h1, _⟩
      exact h1
    have hbn : isNo b = false := by
      rcases Bool.or_eq_false_iff.mp (by simpa [recognized] using hb) with ⟨_, h2⟩
      exact h2
    simp only [List.cons_append, gateLoop, hby, hbn]
    simp only [Bool.false_eq_true, if_false]
    exact ih a post (fun c hc => hpre c (by simp [hc])) ha

/-- C3: the permission gate is a decision table over the assessment's
recommendation: deny returns false and approve returns true, both
without consulting the prompt; any other recommendation loops over the
human's answers and returns the polarity of the first recognized
(y/yes/n/no, after strip and lowercase) answer. -/
theorem C3_permission_gate_decision_table (analysis : RiskAssessment)
    (answers pre post : List String) (a : String) :
    (analysis.recommendation = "deny" →
      ExaminerAgent.request_user_permission analysis answers = some false) ∧
    (analysis.recommendation = "approve" →
      ExaminerAgent.request_user_permission analysis answers = some true) ∧
    (analysis.recommendation ≠ "deny" → analysis.recommendation ≠ "approve" →
      answers = pre ++ a :: post → (∀ b ∈ pre, recognized b = false) →
      recognized a = true →
      ExaminerAgent.request_user_permission analysis answers = some (isYes a)) := by
  refine ⟨?_, ?_, ?_⟩
  · intro h
    simp [ExaminerAgent.request_user_permission, h]
  · intro h
    simp [ExaminerAgent.request_user_permission, h]
  · intro hd hap heq hpre ha
    rw [ExaminerAgent.request_user_permission, if_neg hd, if_neg hap, heq]
    exact gateLoop_first_recognized pre a post hpre ha

/-- Witness for C3: with recommendation request_permission, an
unrecognized answer is skipped and the first recognized answer
" YES " yields approval. -/
theorem C3_permission_gate_decision_table_witness :
    ExaminerAgent.request_user_permission
      ⟨"high", some true, [], [], "request_permission", "w"⟩ ["hm?", " YES "] = some true := by
  have h := (C3_permission_gate_decision_table
    ⟨"high", some true, [], [], "request_permission", "w"⟩
    ["hm?", " YES "] ["hm?"] [] " YES ").2.2
    (by decide) (by decide) rfl (by decide) (by decide)
  exact h.trans (by decide)

/-- C4: for a plan with steps `[A, B, C]` where `A` succeeds and `B`
fails with a non-zero exit, `execute` returns status failed, `results`
containing only the success record for `A`, and `error_context` with
command `B` and `remaining_steps = [C]`; the shell is handed exactly
`[A, B]`, so no step after `B` runs, and `B` occurs in neither the
results nor (when `C ≠ B`) the remaining steps. -/
theorem C4_execute_stops_at_first_failure (shell : String → ShellResult)
    (A B C q out errOut msg d t : String) (rev : Bool) (kb : List CacheEntry)
    (hA : shell A = ShellResult.ok out errOut) (hB : shell B = ShellResult.err msg) :
    ExecutionAgent.execute shell ⟨[A, B, C], d, t, rev⟩ q kb =
      ({ status := "failed"
         results := [{ command := A, status := "success", stdout := out, stderr := errOut }]
         error_context := some { command := B, error := msg, remaining_steps := [C] } },
       add_to_kb kb q ⟨[A, B, C], d, t, rev⟩, [A, B]) ∧
    B ∉ (ExecutionAgent.execute shell ⟨[A, B, C], d, t, rev⟩ q kb).1.results.map
        (fun r => r.command) ∧
    (C ≠ B →
      ∀ ec, (ExecutionAgent.execute shell ⟨[A, B, C], d, t, rev⟩ q kb).1.error_context =
        some ec → B ∉ ec.remaining_steps) := by
  have hBA : B ≠ A := by
    intro h; rw [h, hA] at hB; cases hB
  have hmain : ExecutionAgent.execute shell ⟨[A, B, C], d, t, rev⟩ q kb =
      ({ status := "failed"
         results := [{ command := A, status := "success", stdout := out, stderr := errOut }]
         error_context := some { command := B, error := msg, remaining_steps := [C] } },
       add_to_kb kb q ⟨[A, B, C], d, t, rev⟩, [A, B]) := by
    unfold ExecutionAgent.execute
    simp [executeSteps, hA, hB]
  refine ⟨hmain, ?_, ?_⟩
  · rw [hmain]
    simp [hBA]
  · intro hCB ec hec
    rw [hmain] at hec
    simp at hec
    rw [← hec]
    simp [Ne.symm hCB]

/-- Witness for C4 at concrete commands. -/
theorem C4_execute_stops_at_first_failure_witness :
    ExecutionAgent.execute
      (fun c => if c == "a" then ShellResult.ok "o" "e" else ShellResult.err "exit 1")
      ⟨["a", "b", "c"], "d", "1m", true⟩ "req" [] =
      ({ status := "failed"
         results := [{ command := "a", status := "success", stdout := "o", stderr := "e" }]
         error_context := some { command := "b", error := "exit 1", remaining_steps := ["c"] } },
       add_to_kb [] "req" ⟨["a", "b", "c"], "d", "1m", true⟩, ["a", "b"]) :=
  (C4_execute_stops_at_first_failure
    (fun c => if c == "a" then ShellResult.ok "o" "e" else ShellResult.err "exit 1")
    "a" "b" "c" "req" "o" "e" "exit 1" "d" "1m" true [] (by decide) (by decide)).1

/-- Concrete audit record payload used in the C10 scenarios. -/
def c10Data : AuditData :=
  AuditData.plan ⟨["ls"], "list files", "1s", true⟩

/-- C10 counterexample: a log file that parses as JSON but not as an
array (modelled by `AuditFileState.nonArray`, e.g. a file containing
"123" or an object) makes `AuditorAgent.log` raise — `logs.append`
fails outside the try/except — so the call does NOT leave the file as
a JSON array ending with the new record, contradicting the claim's
"if the existing file parses as JSON, the prior records are preserved
and the new record is appended". -/
theorem C10_log_counterexample :
    AuditorAgent.log AuditFileState.nonArray "execution" c10Data =
      Except.error "AttributeError: object has no attribute append" := by
  rfl

/-- C10 amended: if the existing file parses as a JSON ARRAY, the prior
records are preserved and the new record is appended; if the file is
absent or unparseable, the file is rewritten as an array holding only
the new record (prior malformed content silently discarded); if the
file parses as JSON but not as an array, the call raises and appends
nothing. -/
theorem C10_log_amended (st : AuditFileState) (stage : String) (data : AuditData) :
    ((st = AuditFileState.absent ∨ st = AuditFileState.unparseable) →
      AuditorAgent.log st stage data =
        Except.ok (AuditFileState.array [⟨stage, data⟩])) ∧
    (∀ rs, st = AuditFileState.array rs →
      AuditorAgent.log st stage data =
        Except.ok (AuditFileState.array (rs ++ [⟨stage, data⟩]))) ∧
    (st = AuditFileState.nonArray →
      ∀ st2, AuditorAgent.log st stage data ≠ Except.ok st2) := by
  refine ⟨?_, ?_, ?_⟩
  · rintro (h | h) <;> rw [h] <;> rfl
  · intro rs h
    rw [h]; rfl
  · intro h st2
    rw [h]
    intro hc
    cases hc

/-- Witness for C10 amended: appending to a well-formed one-record log. -/
theorem C10_log_amended_witness :
    AuditorAgent.log (AuditFileState.array [⟨"comprehension", c10Data⟩]) "plan_creation" c10Data =
      Except.ok (AuditFileState.array
        [⟨"comprehension", c10Data⟩, ⟨"plan_creation", c10Data⟩]) :=
  ((C10_log_amended (AuditFileState.array [⟨"comprehension", c10Data⟩])
    "plan_creation" c10Data).2.1 [⟨"comprehension", c10Data⟩] rfl).trans (by rfl)

/-- C5: when planning yields a plan with empty steps, `process_request`
terminates right after logging the `plan_creation` record: the audit
trail holds exactly the comprehension and plan_creation records, the
examiner, gate and executor are never invoked, no shell command runs,
the cache is untouched, and exactly one `create_plan` call (with no
error context) was made — no retry. -/
theorem C5_empty_plan_terminates (o : Oracles) (kb0 : List CacheEntry) (user_input : String)
    (hempty : (PlanningAgent.create_plan o.ratio o.planEnv kb0 user_input
      (ComprehensionAgent.analyze o.comp user_input) none).1.steps = []) :
    MultiAgentSystem.process_request o kb0 user_input =
      { audit := [⟨"comprehension", AuditData.comp (ComprehensionAgent.analyze o.comp user_input)⟩,
                  ⟨"plan_creation", AuditData.plan (PlanningAgent.create_plan o.ratio o.planEnv
                    kb0 user_input (ComprehensionAgent.analyze o.comp user_input) none).1⟩]
        kb := kb0
        planCalls := [none]
        planSearchCalled := (PlanningAgent.create_plan o.ratio o.planEnv kb0 user_input
          (ComprehensionAgent.analyze o.comp user_input) none).2.searchCalled
        planLlmCalled := (PlanningAgent.create_plan o.ratio o.planEnv kb0 user_input
          (ComprehensionAgent.analyze o.comp user_input) none).2.llmCalled
        examinerCalled := false, gateCalled := false, executeCalled := false
        shellInvoked := [], outcome := none, blocked := false } := by
  unfold MultiAgentSystem.process_request
  simp only [hempty, List.isEmpty_nil, if_true, List.nil_append, List.singleton_append]

/-- Witness for C5: a planning reply with no JSON yields the empty
"Failed to create plan" plan and the terminal run shape. -/
theorem C5_empty_plan_terminates_witness :
    MultiAgentSystem.process_request
      { comp := { searchDecisionReply := "NO_SEARCH_NEEDED", searchRun := fun _ => Except.ok ""
                  analysisReply := "none", parseIntent := fun _ => none }
        ratio := fun _ _ => 0
        planEnv := { searchRun := fun _ => Except.ok "", planReply := "cannot plan this"
                     parsePlan := fun _ => none }
        examReply := "irrelevant", parseAssessment := fun _ => none
        answers := [], shell := fun _ => ShellResult.ok "" "" } [] "do something" =
      { audit := [⟨"comprehension", AuditData.comp
                    ⟨"do something", "other", "simple", [], []⟩⟩,
                  ⟨"plan_creation", AuditData.plan
                    ⟨[], "Failed to create plan", "unknown", false⟩⟩]
        kb := [], planCalls := [none]
        planSearchCalled := false, planLlmCalled := true
        examinerCalled := false, gateCalled := false, executeCalled := false
        shellInvoked := [], outcome := none, blocked := false } :=
  (C5_empty_plan_terminates
    { comp := { searchDecisionReply := "NO_SEARCH_NEEDED", searchRun := fun _ => Except.ok ""
                analysisReply := "none", parseIntent := fun _ => none }
      ratio := fun _ _ => 0
      planEnv := { searchRun := fun _ => Except.ok "", planReply := "cannot plan this"
                   parsePlan := fun _ => none }
      examReply := "irrelevant", parseAssessment := fun _ => none
      answers := [], shell := fun _ => ShellResult.ok "" "" } [] "do something"
    (by decide)).trans (by decide)

/-- C9: when the parsed assessment carries `requires_permission: false`,
`process_request` skips `request_user_permission` entirely and goes
straight to execution, whatever the recommendation says (deny
included); and whenever the gate IS consulted, the assessment's
`requires_permission`, read with a default of true for a missing key,
was true. -/
theorem C9_requires_permission_false_skips_gate (o : Oracles) (kb0 : List CacheEntry)
    (user_input : String)
    (hsteps : (PlanningAgent.create_plan o.ratio o.planEnv kb0 user_input
      (ComprehensionAgent.analyze o.comp user_input) none).1.steps ≠ []) :
    ((ExaminerAgent.analyze_plan o.parseAssessment o.examReply
        (PlanningAgent.create_plan o.ratio o.planEnv kb0 user_input
          (ComprehensionAgent.analyze o.comp user_input) none).1).requires_permission =
            some false →
      (MultiAgentSystem.process_request o kb0 user_input).gateCalled = false ∧
      (MultiAgentSystem.process_request o kb0 user_input).executeCalled = true) ∧
    ((MultiAgentSystem.process_request o kb0 user_input).gateCalled = true →
      (ExaminerAgent.analyze_plan o.parseAssessment o.examReply
        (PlanningAgent.create_plan o.ratio o.planEnv kb0 user_input
          (ComprehensionAgent.analyze o.comp user_input) none).1).requires_permission.getD
            true = true) := by
  have hne : ((PlanningAgent.create_plan o.ratio o.planEnv kb0 user_input
      (ComprehensionAgent.analyze o.comp user_input) none).1.steps).isEmpty = false := by
    rcases h : (PlanningAgent.create_plan o.ratio o.planEnv kb0 user_input
      (ComprehensionAgent.analyze o.comp user_input) none).1.steps with _ | ⟨a, l⟩
    · exact absurd h hsteps
    · rfl
  constructor
  · intro hperm
    unfold MultiAgentSystem.process_request
    simp only [hne, Bool.false_eq_true, if_false, hperm, Option.getD_some]
    exact ⟨trivial, trivial⟩
  · intro hgate
    by_cases hperm : (ExaminerAgent.analyze_plan o.parseAssessment o.examReply
        (PlanningAgent.create_plan o.ratio o.planEnv kb0 user_input
          (ComprehensionAgent.analyze o.comp user_input) none).1).requires_permission.getD
            true = true
    · exact hperm
    · exfalso
      unfold MultiAgentSystem.process_request at hgate
      simp only [hne, Bool.false_eq_true, if_false] at hgate
      rw [if_neg hperm] at hgate
      cases hgate

/-- Witness for C9: a deny recommendation combined with
`requires_permission: false` still executes, without asking. -/
theorem C9_requires_permission_false_skips_gate_witness :
    (MultiAgentSystem.process_request
      { comp := { searchDecisionReply := "NO_SEARCH_NEEDED", searchRun := fun _ => Except.ok ""
                  analysisReply := "none", parseIntent := fun _ => none }
        ratio := fun _ _ => 0
        planEnv := { searchRun := fun _ => Except.ok "", planReply := "\x7bp\x7d"
                     parsePlan := fun _ => some ⟨["ls"], "d", "1s", true⟩ }
        examReply := "\x7ba\x7d"
        parseAssessment := fun _ => some ⟨"high", some false, ["ls"], [], "deny", "bad"⟩
        answers := ["n"], shell := fun _ => ShellResult.ok "" "" } [] "list files").gateCalled =
        false ∧
    (MultiAgentSystem.process_request
      { comp := { searchDecisionReply := "NO_SEARCH_NEEDED", searchRun := fun _ => Except.ok ""
                  analysisReply := "none", parseIntent := fun _ => none }
        ratio := fun _ _ => 0
        planEnv := { searchRun := fun _ => Except.ok "", planReply := "\x7bp\x7d"
                     parsePlan := fun _ => some ⟨["ls"], "d", "1s", true⟩ }
        examReply := "\x7ba\x7d"
        parseAssessment := fun _ => some ⟨"high", some false, ["ls"], [], "deny", "bad"⟩
        answers := ["n"], shell := fun _ => ShellResult.ok "" "" } [] "list files").executeCalled =
        true :=
  (C9_requires_permission_false_skips_gate
    { comp := { searchDecisionReply := "NO_SEARCH_NEEDED", searchRun := fun _ => Except.ok ""
                analysisReply := "none", parseIntent := fun _ => none }
      ratio := fun _ _ => 0
      planEnv := { searchRun := fun _ => Except.ok "", planReply := "\x7bp\x7d"
                   parsePlan := fun _ => some ⟨["ls"], "d", "1s", true⟩ }
      examReply := "\x7ba\x7d"
      parseAssessment := fun _ => some ⟨"high", some false, ["ls"], [], "deny", "bad"⟩
      answers := ["n"], shell := fun _ => ShellResult.ok "" "" } [] "list files"
    (by decide)).1 (by decide)

/-- Concrete oracles exhibiting the missing retry: planning returns a
three-step plan, the assessment waves it through, step "b" exits
non-zero. -/
def c1Oracles : Oracles where
  comp :=
    { searchDecisionReply := "NO_SEARCH_NEEDED"
      searchRun := fun _ => Except.ok ""
      analysisReply := "no json in this reply"
      parseIntent := fun _ => none }
  ratio := fun _ _ => 0
  planEnv :=
    { searchRun := fun _ => Except.ok ""
      planReply := "\x7bp\x7d"
      parsePlan := fun _ => some ⟨["a", "b", "c"], "demo", "1m", false⟩ }
  examReply := "\x7ba\x7d"
  parseAssessment := fun _ => some ⟨"low", some false, [], ["a", "b", "c"], "approve", ""⟩
  answers := []
  shell := fun c => if c == "a" then ShellResult.ok "out" "" else ShellResult.err "exit 1"

/-- C1: evaluation of `process_request` at a request whose execution
fails on step "b" of ["a","b","c"].  The outcome is `failed` and its
`error_context` carries the failed command and the trailing step, yet
the run's `create_plan` call trace is `[none]`: exactly one planning
call was made, with no `error_context` — the orchestrator never
re-enters planning, so the retry contract claimed by the spec (and
prepared for by `create_plan`'s unused `error_context` parameter) is
not exercised by the code. -/
theorem C1_no_replan_after_failure_eval :
    (MultiAgentSystem.process_request c1Oracles [] "install pkg").outcome =
      some ⟨"failed", [⟨"a", "success", "out", ""⟩],
        some ⟨"b", "exit 1", ["c"]⟩⟩ ∧
    (MultiAgentSystem.process_request c1Oracles [] "install pkg").planCalls = [none] := by
  decide

/-- Equality-indicator similarity: a concrete stand-in for difflib's
ratio that satisfies the three properties the cache theorems assume of
it (1 on equal strings, at most 1, and 1 only on equal strings). -/
def eqRatio (s t : String) : ℚ :=
  if s = t then 1 else 0

/-- First plan stored under the duplicated query in the C6 scenario. -/
def c6PlanA : Plan := ⟨["apt-get install -y curl"], "first stored plan", "1m", false⟩

/-- Second plan stored under the duplicated query in the C6 scenario. -/
def c6PlanB : Plan := ⟨["snap install curl"], "second stored plan", "1m", false⟩

/-- Cache state where the same query was stored twice with different
plans (the cache has no uniqueness constraint). -/
def c6Kb : List CacheEntry :=
  [⟨"install curl", c6PlanA⟩, ⟨"install curl", c6PlanB⟩]

lemma get_close_matches1_exact (ratio : String → String → ℚ)
    (h1 : ∀ s, ratio s s = 1) (h2 : ∀ s t2, ratio s t2 ≤ 1)
    (h3 : ∀ s t2, ratio s t2 = 1 → s = t2)
    (word : String) (possibilities : List String) (cutoff : ℚ)
    (hcut1 : cutoff ≤ 1) (hmem : word ∈ possibilities) :
    get_close_matches1 ratio word possibilities cutoff = [word] := by
  have hfold : ((possibilities.filter (fun x => cutoff ≤ ratio x word)).map
      (fun x => (ratio x word, x))).foldl pickBest none = some ((1 : ℚ), word) := by
    apply foldl_pickBest_eq_top ((1 : ℚ), word)
    · intro x hx
      rcases List.mem_map.mp hx with ⟨y, hy, hxy⟩
      subst hxy
      rcases lt_or_eq_of_le (h2 y word) with hlt | heq
      · right; exact hlt
      · left
        have hyw := h3 y word heq
        rw [heq, hyw]
    · intro y hy; cases hy
    · right
      apply List.mem_map.mpr
      refine ⟨word, List.mem_filter.mpr ⟨hmem, ?_⟩, ?_⟩
      · simp [h1 word, hcut1]
      · rw [h1 word]
  simp only [get_close_matches1]
  rw [hfold]

/-- C6 counterexample: with a similarity having the claimed properties
of difflib's ratio (reflexive at 1, bounded by 1, and 1 only on equal
strings), a cache where the same query "install curl" was stored twice
with two different plans refutes the claim: `(q, c6PlanB)` is a stored
pair, yet `lookup(q)` returns `c6PlanA`, the plan of the FIRST entry
with that query, not `c6PlanB`. -/
theorem C6_lookup_counterexample :
    eqRatio "install curl" "install curl" = 1 ∧
    mkRat 6 10 ≤ eqRatio "install curl" "install curl" ∧
    (⟨"install curl", c6PlanB⟩ : CacheEntry) ∈ c6Kb ∧
    find_similar_plan eqRatio c6Kb "install curl" (mkRat 6 10) = some c6PlanA ∧
    c6PlanA ≠ c6PlanB := by
  decide

/-- C6 amended: for any similarity `ratio` that is 1 on equal strings,
bounded by 1, and equal to 1 only on equal strings (the behaviour of
difflib's SequenceMatcher ratio on the strings at hand), if `q` is
stored in the cache then `lookup(q)` (threshold 0.6) returns the plan
of the FIRST cache entry whose query is `q`; in particular, when `q`
was stored exactly once with plan `p`, it returns `p`. -/
theorem C6_amended_lookup_returns_first_stored (ratio : String → String → ℚ)
    (h1 : ∀ s, ratio s s = 1) (h2 : ∀ s t2, ratio s t2 ≤ 1)
    (h3 : ∀ s t2, ratio s t2 = 1 → s = t2)
    (kb : List CacheEntry) (q : String) (e : CacheEntry)
    (hfind : kb.find? (fun item => item.query == q) = some e) :
    find_similar_plan ratio kb q (mkRat 6 10) = some e.plan := by
  have hq : q ∈ kb.map (fun item => item.query) := by
    have hmem := List.mem_of_find?_eq_some hfind
    have hb := List.find?_some hfind
    have hpq : e.query = q := by simpa using hb
    exact List.mem_map.mpr ⟨e, hmem, hpq⟩
  have hkb : kb.isEmpty = false := by
    cases kb with
    | nil => cases hfind
    | cons a l => rfl
  simp only [find_similar_plan, hkb, Bool.false_eq_true, if_false]
  rw [get_close_matches1_exact ratio h1 h2 h3 q (kb.map fun item => item.query)
    (mkRat 6 10) (by decide) hq]
  simp [hfind]

/-- Witness for C6 amended: a singleton cache, exact query. -/
theorem C6_amended_lookup_returns_first_stored_witness :
    find_similar_plan eqRatio [⟨"install curl", c6PlanA⟩] "install curl" (mkRat 6 10) =
      some c6PlanA :=
  C6_amended_lookup_returns_first_stored eqRatio
    (fun s => by simp [eqRatio])
    (fun s t2 => by by_cases h : s = t2 <;> simp [eqRatio, h])
    (fun s t2 h => by
      by_cases hst : s = t2
      · exact hst
      · exfalso; simp [eqRatio, hst] at h)
    [⟨"install curl", c6PlanA⟩] "install curl" ⟨"install curl", c6PlanA⟩ (by decide)

lemma executeSteps_kb_growth (shell : String → ShellResult) (plan : Plan) (q : String) :
    ∀ (steps : List String) (results : List StepResult) (kb : List CacheEntry)
      (invoked : List String),
      ∃ n, (executeSteps shell plan q steps results kb invoked).1.results.length =
          results.length + n ∧
        (executeSteps shell plan q steps results kb invoked).2.1 =
          kb ++ List.replicate n (⟨q, plan⟩ : CacheEntry) := by
  intro steps
  induction steps with
  | nil =>
    intro results kb invoked
    exact ⟨0, by simp [executeSteps]⟩
  | cons cmd rest ih =>
    intro results kb invoked
    cases h : shell cmd with
    | ok out errOut =>
      obtain ⟨n, hlen, hkb⟩ := ih
        (results ++ [{ command := cmd, status := "success", stdout := out, stderr := errOut }])
        (add_to_kb kb q plan) (invoked ++ [cmd])
      refine ⟨n + 1, ?_, ?_⟩
      · simp only [executeSteps, h, hlen, List.length_append, List.length_cons,
          List.length_nil]
        omega
      · simp only [add_to_kb] at hkb
        simp only [executeSteps, h, add_to_kb, hkb, List.append_assoc,
          List.singleton_append, List.replicate_succ]
    | err msg => exact ⟨0, by simp [executeSteps, h]⟩
    | timeout => exact ⟨0, by simp [executeSteps, h]⟩

/-- Concrete oracles for the C7 counterexample: the cache already
holds the query, so planning is a pure cache hit, and the single
cached step succeeds. -/
def c7Plan : Plan := ⟨["ls"], "cached plan", "1s", true⟩

/-- Cache state holding the entry that will be hit in the C7 run. -/
def c7Kb : List CacheEntry := [⟨"list files", c7Plan⟩]

/-- Oracle bundle for the C7 counterexample run. -/
def c7Oracles : Oracles where
  comp :=
    { searchDecisionReply := "NO_SEARCH_NEEDED"
      searchRun := fun _ => Except.ok ""
      analysisReply := "no json in this reply"
      parseIntent := fun _ => none }
  ratio := eqRatio
  planEnv :=
    { searchRun := fun _ => Except.error "planning should not search on a hit"
      planReply := ""
      parsePlan := fun _ => none }
  examReply := "\x7ba\x7d"
  parseAssessment := fun _ => some ⟨"low", some false, [], ["ls"], "approve", ""⟩
  answers := []
  shell := fun _ => ShellResult.ok "files" ""

/-- C7 counterexample: a request answered by a cache hit (the planning
trace shows neither the LLM nor the search tool ran) still appends a
new `(query, plan)` entry to the cache, because `execute` calls
`add_to_kb` after every successful step — the hit plan IS re-persisted
during its execution, contradicting the claim that no entry is
appended at any point while the request is processed. -/
theorem C7_hit_replan_counterexample :
    (MultiAgentSystem.process_request c7Oracles c7Kb "list files").planLlmCalled = false ∧
    (MultiAgentSystem.process_request c7Oracles c7Kb "list files").planSearchCalled = false ∧
    (MultiAgentSystem.process_request c7Oracles c7Kb "list files").kb =
      c7Kb ++ [⟨"list files", c7Plan⟩] := by
  decide

/-- C7 amended: on a cache hit, `create_plan` returns the cached plan
immediately — no store call (its type reads the cache and never
writes), no LLM call and no search call; however, when that plan is
executed, each successful step appends one `(request, plan)` entry to
the cache, so a hit plan with at least one successful step IS
re-persisted during execution. -/
theorem C7_amended_hit_skips_planning_calls (ratio : String → String → ℚ)
    (env : PlanEnv) (kb : List CacheEntry) (q : String)
    (intent : IntentDescriptor) (ec : Option ErrorContext) (p : Plan)
    (shell : String → ShellResult)
    (hhit : find_similar_plan ratio kb q (mkRat 6 10) = some p) :
    PlanningAgent.create_plan ratio env kb q intent ec = (p, ⟨false, false⟩) ∧
    (ExecutionAgent.execute shell p q kb).2.1 =
      kb ++ List.replicate (ExecutionAgent.execute shell p q kb).1.results.length
        (⟨q, p⟩ : CacheEntry) := by
  constructor
  · unfold PlanningAgent.create_plan
    rw [hhit]
  · obtain ⟨n, hlen, hkb⟩ := executeSteps_kb_growth shell p q p.steps [] kb []
    unfold ExecutionAgent.execute
    rw [hkb, hlen]
    simp

/-- Witness for C7 amended: singleton cache, exact-match hit, one
successful step — the cache gains exactly one more copy. -/
theorem C7_amended_hit_skips_planning_calls_witness :
    PlanningAgent.create_plan eqRatio c7Oracles.planEnv c7Kb "list files"
      ⟨"list files", "other", "simple", [], []⟩ none = (c7Plan, ⟨false, false⟩) ∧
    (ExecutionAgent.execute c7Oracles.shell c7Plan "list files" c7Kb).2.1 =
      c7Kb ++ List.replicate
        (ExecutionAgent.execute c7Oracles.shell c7Plan "list files" c7Kb).1.results.length
        (⟨"list files", c7Plan⟩ : CacheEntry) :=
  C7_amended_hit_skips_planning_calls eqRatio c7Oracles.planEnv c7Kb "list files"
    ⟨"list files", "other", "simple", [], []⟩ none c7Plan c7Oracles.shell (by decide)
